import Mathlib

/-!
Shallow embedding of the sensory_data_client data layer.

The definitions below are translated from the Python source of the
repository (sensoryfox/datafileclient): the upload/delete orchestrator in
client.py, the metadata repositories, the line store in
repositories/lines_repo/pg_repositoryLine.py, the image job repository in
repositories/lines_repo/pg_repositoryImage.py, the markdown hash parser in
utils/cli_utils.py, the pydantic normalisation in models/line.py and the
PostgreSQL trigger defined in db/triggers.py.

External effects are made explicit: byte content is a list of byte values,
the blob store is a list of object paths, database tables are lists of row
records, and the fallible external calls (MinIO puts/removes, DB commits)
take an explicit outcome describing the exception they raise, if any.
Timestamps are modelled as natural numbers supplied by the caller.
-/

namespace SensoryDataClient

/-- Byte content of an uploaded file. -/
abbrev Bytes := List Nat

/-- Exception values as the orchestrator can observe them.  The repository
wraps some, but not all, driver errors: `databaseError` and `minioError`
are the wrapped exception classes from exceptions.py, while
`sqlAlchemyError` stands for a raw sqlalchemy.exc error (IntegrityError
and friends) that escapes a repository method that does no wrapping. -/
inductive PyExc where
  | databaseError (msg : String)
  | minioError (msg : String)
  | documentNotFoundError (msg : String)
  | sqlAlchemyError (msg : String)
  | attributeError (msg : String)
  | otherError (msg : String)
deriving DecidableEq, Repr

/-- Document kind, from db/documents/document_orm.py. -/
inductive DocType where
  | generic
  | audio
  | video
deriving DecidableEq, Repr

/-- client.py: audio file extensions. -/
def AUDIO_EXTS : List String :=
  ["wav", "mp3", "ogg", "m4a", "flac", "aac", "wma", "alac", "opus"]

/-- client.py: video file extensions. -/
def VIDEO_EXTS : List String :=
  ["mp4", "mov", "mkv", "webm", "avi"]

/-- client.py get_filetype: classify a file extension into a DocType. -/
def get_filetype (ext : String) : DocType :=
  if ext ∈ AUDIO_EXTS then DocType.audio
  else if ext ∈ VIDEO_EXTS then DocType.video
  else DocType.generic

/-- str.split with a one-character separator, on character lists. -/
def splitOnChar (sep : Char) : List Char → List (List Char)
  | [] => [[]]
  | c :: rest =>
    let r := splitOnChar sep rest
    if c = sep then [] :: r
    else
      match r with
      | [] => [[c]]
      | h :: t => (c :: h) :: t

/-- str.split with a one-character separator, on strings. -/
def pySplit (s : String) (sep : Char) : List String :=
  (splitOnChar sep s.toList).map String.mk

/-- str.lower, character-wise (the identifiers in play are ascii). -/
def asciiLower (s : String) : String :=
  String.mk (s.toList.map Char.toLower)

/-- str.strip with no argument: drop whitespace at both ends. -/
def pyStrip (s : String) : String :=
  String.mk
    (((s.toList.dropWhile Char.isWhitespace).reverse.dropWhile Char.isWhitespace).reverse)

/-- Index of the last dot in a character list, if any. -/
def lastDotIdx : List Char → Option Nat
  | [] => none
  | c :: cs =>
    match lastDotIdx cs with
    | some i => some (i + 1)
    | none => if c = '.' then some 0 else none

/-- pathlib Path.suffix: the final dotted extension of the basename,
including the leading dot; empty when the dot is the first character of
the basename or the final one. -/
def path_suffix (fname : String) : String :=
  let base := (pySplit fname '/').getLastD ""
  let cs := base.toList
  match lastDotIdx cs with
  | some i => if 0 < i ∧ i < cs.length - 1 then String.mk (cs.drop i) else ""
  | none => ""

/-- os.path.splitext extension part: like Path.suffix but a lone trailing
dot counts as the extension, and leading dots of the basename never start
one. -/
def splitext_ext (fname : String) : String :=
  let base := (pySplit fname '/').getLastD ""
  let cs := base.toList
  match lastDotIdx cs with
  | some i => if (cs.take i).all (fun c => c = '.') then "" else String.mk (cs.drop i)
  | none => ""

/-- str.lstrip with a dot argument: drop every leading dot. -/
def lstripDot (s : String) : String :=
  String.mk (s.toList.dropWhile (fun c => c = '.'))

/-- Python `s or d` for strings: the default replaces the empty string. -/
def orDefault (s d : String) : String :=
  if s = "" then d else s

/-- client.py upload_file: extension used for DocType classification,
`Path(file_name).suffix.lower().lstrip(".") or "bin"`. -/
def upload_ext (file_name : String) : String :=
  orDefault (lstripDot (asciiLower (path_suffix file_name))) "bin"

/-- client.py upload_file: extension recorded on the StoredFile row,
`Path(file_name).suffix.lower().lstrip(".")` with no default. -/
def stored_ext (file_name : String) : String :=
  lstripDot (asciiLower (path_suffix file_name))

/-- uuid hex digits of a modelled document id. -/
def docIdHex (n : Nat) : String :=
  (Nat.toDigits 16 n).asString

/-- client.py _build_object_path: `{ext}/{doc_id.hex}/raw/{fname}` with the
splitext extension defaulted to bin. -/
def build_object_path (fname : String) (doc_id : Nat) : String :=
  let ext := orDefault (lstripDot (splitext_ext fname)) "bin"
  ext ++ "/" ++ docIdHex doc_id ++ "/raw/" ++ fname

/-- A stored_files row (db/documents/storage_orm.py). -/
structure StoredFile where
  id : Nat
  content_hash : String
  object_path : String
  size_bytes : Nat
  extension : String
deriving DecidableEq, Repr

/-- The caller-supplied document metadata (models DocumentCreate). -/
structure DocMeta where
  user_document_id : String
  name : String
  owner_id : Nat
  access_group_id : Option Nat
  metadata : String
deriving DecidableEq, Repr

/-- A documents row (db/documents/document_orm.py), the fields the
orchestrator writes. -/
structure DocumentRow where
  id : Nat
  user_document_id : String
  name : String
  owner_id : Nat
  access_group_id : Option Nat
  metadata : String
  stored_file_id : Nat
  doc_type : DocType
deriving DecidableEq, Repr

/-- Combined state of the blob store and the two registry tables the
upload orchestrator touches.  `next_sf_id` models the stored_files id
sequence. -/
structure StoreSt where
  blobs : List String
  stored_files : List StoredFile
  documents : List DocumentRow
  next_sf_id : Nat
deriving DecidableEq, Repr

/-- pg_repositoryMeta get_stored_file_by_hash: exact lookup, no side
effects. -/
def get_stored_file_by_hash (s : StoreSt) (h : String) : Option StoredFile :=
  s.stored_files.find? (fun sf => sf.content_hash == h)

/-- MinIO remove_object: removing an absent key is a silent no-op. -/
def remove_blob (s : StoreSt) (path : String) : StoreSt :=
  { s with blobs := s.blobs.filter (fun p => p != path) }

/-- Outcomes of the externally fallible calls inside upload_file:
the exception raised by minio.put_object, if any, and the exception
raised by the database save call, if any.  save_new_physical_file
(pg_repositoryMeta.py) contains no exception handler, so a failing
commit surfaces as a raw sqlalchemy error, not as a DatabaseError. -/
structure UploadEnv where
  put_exc : Option PyExc
  db_exc : Option PyExc
deriving DecidableEq, Repr

/-- client.py upload_file: the `except (DatabaseError, MinioError)` clause
that guards the compensating blob removal. -/
def caught_by_upload_handler : PyExc → Bool
  | PyExc.databaseError _ => true
  | PyExc.minioError _ => true
  | _ => false

/-- client.py upload_file: content-hash dedup upload.  Duplicate path:
only a Document row is created.  New-content path: blob write first, then
the two DB rows; on a caught exception the just-written blob is removed
before re-raising, on any other exception nothing is removed. -/
def upload_file (sha256hex : Bytes → String) (s : StoreSt) (env : UploadEnv)
    (file_name : String) (content : Bytes) (meta : DocMeta) (id_doc : Nat) :
    StoreSt × Except PyExc DocumentRow :=
  let content_hash := sha256hex content
  let doc_type := get_filetype (upload_ext file_name)
  match get_stored_file_by_hash s content_hash with
  | some existing =>
    let doc : DocumentRow :=
      { id := id_doc, user_document_id := meta.user_document_id, name := meta.name,
        owner_id := meta.owner_id, access_group_id := meta.access_group_id,
        metadata := meta.metadata, stored_file_id := existing.id, doc_type := doc_type }
    match env.db_exc with
    | some e => (s, Except.error e)
    | none => ({ s with documents := s.documents ++ [doc] }, Except.ok doc)
  | none =>
    let object_path := build_object_path file_name id_doc
    match env.put_exc with
    | some e =>
      if caught_by_upload_handler e then (remove_blob s object_path, Except.error e)
      else (s, Except.error e)
    | none =>
      let s1 := { s with blobs := s.blobs ++ [object_path] }
      let sf : StoredFile :=
        { id := s.next_sf_id, content_hash := content_hash, object_path := object_path,
          size_bytes := content.length, extension := stored_ext file_name }
      let doc : DocumentRow :=
        { id := id_doc, user_document_id := meta.user_document_id, name := meta.name,
          owner_id := meta.owner_id, access_group_id := meta.access_group_id,
          metadata := meta.metadata, stored_file_id := sf.id, doc_type := doc_type }
      match env.db_exc with
      | some e =>
        if caught_by_upload_handler e then (remove_blob s1 object_path, Except.error e)
        else (s1, Except.error e)
      | none =>
        let s2 : StoreSt :=
          { s1 with
            stored_files := s1.stored_files ++ [sf]
            documents := s1.documents ++ [doc]
            next_sf_id := s1.next_sf_id + 1 }
        (s2, Except.ok doc)

/-- pg_repositoryMeta delete: remove the Document row (children cascade). -/
def delete_document_row (s : StoreSt) (doc_id : Nat) : StoreSt :=
  { s with documents := s.documents.filter (fun d => d.id != doc_id) }

/-- pg_repositoryMeta is_stored_file_orphan: no document references the
stored file. -/
def is_stored_file_orphan (s : StoreSt) (sf_id : Nat) : Bool :=
  (s.documents.filter (fun d => d.stored_file_id == sf_id)).length == 0

/-- client.py delete_file.  `remove_exc` is the exception raised by
minio.remove_object during the orphan branch, if any; the source has no
handler around that call, so the exception propagates immediately.  After
a successful blob removal the source calls self.obj.delete_stored_file,
but ObjectRepository (pg_repositoryObj.py) defines no such method, so the
attribute lookup raises AttributeError and the stored_files row is never
deleted. -/
def delete_file (s : StoreSt) (remove_exc : Option PyExc) (doc_id : Nat) :
    StoreSt × Except PyExc Unit :=
  match s.documents.find? (fun d => d.id == doc_id) with
  | none =>
    (s, Except.error (PyExc.documentNotFoundError
      ("Document with id " ++ toString doc_id ++ " not found.")))
  | some doc =>
    match s.stored_files.find? (fun f => f.id == doc.stored_file_id) with
    | none => (s, Except.error (PyExc.otherError "stored_file relationship not loaded"))
    | some sf =>
      let s1 := delete_document_row s doc_id
      if is_stored_file_orphan s1 doc.stored_file_id then
        match remove_exc with
        | some e => (s1, Except.error e)
        | none =>
          let s2 := remove_blob s1 sf.object_path
          (s2, Except.error (PyExc.attributeError
            "ObjectRepository object has no attribute delete_stored_file"))
      else (s1, Except.ok ())

/-! ## Line store: parsing and normalisation -/

/-- Match the markdown image pattern at the head of the character list:
a bang and open bracket, any run without a closing bracket, the closing
bracket, an open paren, a nonempty run without a closing paren, the
closing paren.  Returns the captured group.  The character classes cannot
cross their terminators, so greedy matching is deterministic and this
scanner agrees with the regex in utils/cli_utils.py and db/triggers.py. -/
def matchImageAt : List Char → Option (List Char)
  | '!' :: '[' :: rest =>
    match rest.dropWhile (fun c => c != ']') with
    | ']' :: '(' :: rest2 =>
      let grp := rest2.takeWhile (fun c => c != ')')
      if grp.isEmpty then none
      else
        match rest2.dropWhile (fun c => c != ')') with
        | ')' :: _ => some grp
        | _ => none
    | _ => none
  | _ => none

/-- re.search: try the image pattern at every start position, leftmost
match wins. -/
def searchImageRef : List Char → Option (List Char)
  | [] => none
  | c :: cs =>
    match matchImageAt (c :: cs) with
    | some g => some g
    | none => searchImageRef cs

/-- The tail of parse_image_hash_from_md once the file name is isolated:
the name must contain a dot, and the part before the first dot is the
hash, with an empty part mapped to no hash. -/
def extract_hash_from_fname (fname : String) : Option String :=
  if fname.toList.any (fun c => c = '.') then
    if (pySplit fname '.').headD "" == "" then none
    else some ((pySplit fname '.').headD "")
  else none

/-- utils/cli_utils.py parse_image_hash_from_md: pull the hash out of an
image placeholder.  The captured file name is trimmed and reduced to its
last slash-separated component before the extension strip. -/
def parse_image_hash_from_md (content : String) : Option String :=
  if content == "" then none
  else
    match searchImageRef content.toList with
    | none => none
    | some grp =>
      extract_hash_from_fname ((pySplit (pyStrip (String.mk grp)) '/').getLastD "")

/-- Python truthiness of an optional string: missing or empty is falsy. -/
def strFalsy : Option String → Bool
  | none => true
  | some s => s == ""

/-- Python `a or b` on optional strings: the left value unless falsy. -/
def pyOr (a b : Option String) : Option String :=
  if strFalsy a then b else a

/-- The raw caller-supplied line record (models Line/EnrichedLine input as
save_lines consumes it).  Missing fields are `none`; payloads that only
travel through (geometry, attrs, emo_scores) are carried as strings. -/
structure InLine where
  position : Int
  block_type : Option String := none
  content : Option String := none
  page_idx : Option Int := none
  block_id : Option String := none
  geometry : Option String := none
  polygon : Option String := none
  bbox : Option String := none
  hierarchy : Option String := none
  attrs : Option String := none
  is_image : Option Bool := none
  image_hash : Option String := none
  object_key : Option String := none
  filename : Option String := none
  status : Option String := none
  result_text : Option String := none
  ocr_text : Option String := none
  start_ts : Option Rat := none
  end_ts : Option Rat := none
  duration : Option Rat := none
  speaker_label : Option String := none
  speaker_idx : Option Int := none
  confidence : Option Rat := none
  emo_primary : Option String := none
  emo_scores : Option String := none
deriving DecidableEq, Repr

/-- models/line.py NormLine after validation: block_type and content are
materialised strings, everything else as in the input. -/
structure NormLine where
  position : Int
  block_type : String
  content : String
  page_idx : Option Int
  block_id : Option String
  geometry : Option String
  polygon : Option String
  bbox : Option String
  hierarchy : Option String
  attrs : Option String
  is_image : Option Bool
  image_hash : Option String
  object_key : Option String
  filename : Option String
  status : Option String
  result_text : Option String
  ocr_text : Option String
  start_ts : Option Rat
  end_ts : Option Rat
  duration : Option Rat
  speaker_label : Option String
  speaker_idx : Option Int
  confidence : Option Rat
  emo_primary : Option String
  emo_scores : Option String
deriving DecidableEq, Repr

/-- models/line.py NormLine._is_image_block: the is_image flag, or a
block_type of image or image_placeholder. -/
def NormLine.is_image_block (n : NormLine) : Bool :=
  n.is_image.getD false ||
    (asciiLower n.block_type == "image" ||
      asciiLower n.block_type == "image_placeholder")

/-- models/line.py NormLine validation: default block_type to text and
content to the empty string, lower-case a non-empty block_type, and for an
image block without a hash derive the hash from the markdown content and
default the filename to the hash with a png extension. -/
def NormLine.model_validate (i : InLine) : NormLine :=
  let bt0 := i.block_type.getD "text"
  let bt := if bt0 == "" then bt0 else asciiLower bt0
  let content := i.content.getD ""
  let base : NormLine :=
    { position := i.position, block_type := bt, content := content,
      page_idx := i.page_idx, block_id := i.block_id, geometry := i.geometry,
      polygon := i.polygon, bbox := i.bbox, hierarchy := i.hierarchy, attrs := i.attrs,
      is_image := i.is_image, image_hash := i.image_hash, object_key := i.object_key,
      filename := i.filename, status := i.status, result_text := i.result_text,
      ocr_text := i.ocr_text, start_ts := i.start_ts, end_ts := i.end_ts,
      duration := i.duration, speaker_label := i.speaker_label,
      speaker_idx := i.speaker_idx, confidence := i.confidence,
      emo_primary := i.emo_primary, emo_scores := i.emo_scores }
  if base.is_image_block && strFalsy base.image_hash then
    match parse_image_hash_from_md content with
    | some parsed =>
      if parsed == "" then base
      else
        { base with
          image_hash := some parsed
          filename := if strFalsy base.filename then some (parsed ++ ".png") else base.filename }
    | none => base
  else base

/-! ## Line store: tables -/

/-- A raw_lines row (db/documents/lines/rawline_orm.py). -/
structure RawLineRow where
  id : Nat
  doc_id : Nat
  position : Int
  block_type : String
  content : String
deriving DecidableEq, Repr

/-- The geometry JSON stored on a lines_document row: either the dict
passed through, or the dict assembled from polygon and bbox. -/
inductive GeometryVal where
  | given (g : String)
  | fromParts (polygon : Option String) (bbox : Option String)
deriving DecidableEq, Repr

/-- A lines_document row (db/documents/lines/documentLine_orm.py), the
columns save_lines writes. -/
structure DocDetailRow where
  line_id : Nat
  doc_id : Nat
  page_idx : Option Int
  block_id : Option String
  geometry : Option GeometryVal
  hierarchy : Option String
  attrs : Option String
deriving DecidableEq, Repr

/-- A lines_image row (db/documents/lines/imageLine_orm.py).  filename and
image_hash are NOT NULL columns; attempts defaults to zero and the two
timestamps default to the insertion time. -/
structure ImageDetailRow where
  line_id : Nat
  doc_id : Nat
  filename : String
  image_hash : String
  status : String
  attempts : Nat
  result_text : Option String
  ocr_text : Option String
  llm_model : Option String
  last_error : Option String
  created_at : Nat
  updated_at : Nat
  processed_at : Option Nat
deriving DecidableEq, Repr

/-- A lines_audio row (db/documents/lines/audioLine_orm.py), the columns
save_lines writes; start_ts is NOT NULL. -/
structure AudioDetailRow where
  line_id : Nat
  doc_id : Nat
  start_ts : Rat
  end_ts : Option Rat
  duration : Option Rat
  speaker_label : Option String
  speaker_idx : Option Int
  confidence : Option Rat
  emo_primary : Option String
  emo_scores : Option String
deriving DecidableEq, Repr

/-- The four line-store tables plus the id mint for raw_lines. -/
structure LineDB where
  raw_lines : List RawLineRow
  doc_details : List DocDetailRow
  image_details : List ImageDetailRow
  audio_details : List AudioDetailRow
  next_line_id : Nat
deriving DecidableEq, Repr

/-! ## Line store: the raw_lines image trigger (db/triggers.py) -/

/-- db/triggers.py: the regexp_matches capture of the image file name in
the trigger function, same pattern as the Python parser but with no trim,
basename or dot handling. -/
def sql_regexp_image_fname (content : String) : Option String :=
  (searchImageRef content.toList).map String.mk

/-- db/triggers.py: regexp_replace of a final dot-extension.  The pattern
needs at least one character after the last dot, so a trailing dot is kept. -/
def sql_strip_ext (fname : String) : String :=
  let cs := fname.toList
  match lastDotIdx cs with
  | some i => if i + 1 < cs.length then String.mk (cs.take i) else fname
  | none => fname

/-- db/triggers.py upsert_image_details_from_raw_line: fires after every
raw_lines insert or update.  Only image_placeholder rows with a parseable
markdown reference act; the upsert conflicts on line_id, refreshing
filename and image_hash, stamping updated_at, and resetting only a failed
status to pending while every other status is kept. -/
def trigger_upsert_image (imgs : List ImageDetailRow) (r : RawLineRow) (now : Nat) :
    List ImageDetailRow :=
  if r.block_type != "image_placeholder" then imgs
  else
    match sql_regexp_image_fname r.content with
    | none => imgs
    | some fname =>
      if fname == "" then imgs
      else
        let hash := sql_strip_ext fname
        if imgs.any (fun i => i.line_id == r.id) then
          imgs.map (fun i =>
            if i.line_id == r.id then
              { i with
                filename := fname
                image_hash := hash
                updated_at := now
                status := if i.status == "failed" then "pending" else i.status }
            else i)
        else
          let fresh : ImageDetailRow :=
            { line_id := r.id, doc_id := r.doc_id, filename := fname,
              image_hash := hash, status := "pending", attempts := 0,
              result_text := none, ocr_text := none, llm_model := none,
              last_error := none, created_at := now, updated_at := now,
              processed_at := none }
          imgs ++ [fresh]

/-! ## Line store: save_lines (pg_repositoryLine.py) -/

/-- save_lines helper _geometry_dict: a dict geometry passes through; else
polygon or bbox, when truthy, are packed into a fresh dict. -/
def geometry_dict (n : NormLine) : Option GeometryVal :=
  match n.geometry with
  | some g => some (GeometryVal.given g)
  | none =>
    if !(strFalsy n.polygon) || !(strFalsy n.bbox) then
      some (GeometryVal.fromParts n.polygon n.bbox)
    else none

/-- Lookup in the position-to-id mapping returned by the core insert.
Every detail builder looks up a position of its own input list, so the
dict access cannot miss; zero is the unreachable default. -/
def pos2idLookup (m : List (Int × Nat)) (p : Int) : Nat :=
  match m.find? (fun q => q.1 == p) with
  | some q => q.2
  | none => 0

/-- save_lines helper _insert_core, one row: mint the id, insert the core
row, and fire the raw_lines trigger. -/
def insert_core_row (db : LineDB) (doc_id : Nat) (n : NormLine) (now : Nat) :
    LineDB × Nat :=
  let rid := db.next_line_id
  let row : RawLineRow :=
    { id := rid, doc_id := doc_id, position := n.position,
      block_type := if n.block_type == "" then "text" else n.block_type,
      content := n.content }
  let db2 : LineDB :=
    { db with
      raw_lines := db.raw_lines ++ [row]
      image_details := trigger_upsert_image db.image_details row now
      next_line_id := rid + 1 }
  (db2, rid)

/-- save_lines helper _insert_core: insert all core rows in input order,
returning the position-to-id mapping. -/
def insert_core_rows (doc_id : Nat) (now : Nat) :
    LineDB → List NormLine → LineDB × List (Int × Nat)
  | db, [] => (db, [])
  | db, n :: rest =>
    let p := insert_core_row db doc_id n now
    let q := insert_core_rows doc_id now p.1 rest
    (q.1, (n.position, p.2) :: q.2)

/-- save_lines helper _build_doc_details: one structural row per line with
any of page_idx, block_id, geometry or hierarchy present. -/
def build_doc_details (doc_id : Nat) (nlines : List NormLine)
    (pos2id : List (Int × Nat)) : List DocDetailRow :=
  (nlines.filter (fun n =>
    n.page_idx.isSome || n.block_id.isSome || (geometry_dict n).isSome ||
      n.hierarchy.isSome)).map
    (fun n =>
      { line_id := pos2idLookup pos2id n.position, doc_id := doc_id,
        page_idx := n.page_idx, block_id := n.block_id,
        geometry := geometry_dict n, hierarchy := n.hierarchy, attrs := n.attrs })

/-- save_lines helper _build_image_details before the line_id dedup: image
blocks only, hash from the input or from the markdown content, lines
without a hash skipped; status defaults to pending and filename to the
hash with a png extension.  ImageLineORM has no object_key column, so the
conditional object_key entry of the source is never added. -/
def build_image_details_raw (doc_id : Nat) (allow_images : Bool)
    (nlines : List NormLine) (pos2id : List (Int × Nat)) (now : Nat) :
    List ImageDetailRow :=
  if !allow_images then []
  else
    nlines.filterMap (fun n =>
      if !n.is_image_block then none
      else
        match pyOr n.image_hash (parse_image_hash_from_md n.content) with
        | none => none
        | some h =>
          if h == "" then none
          else
            let row : ImageDetailRow :=
              { line_id := pos2idLookup pos2id n.position, doc_id := doc_id,
                status := if strFalsy n.status then "pending" else n.status.getD "",
                result_text := n.result_text, ocr_text := n.ocr_text,
                filename := if strFalsy n.filename then h ++ ".png" else n.filename.getD "",
                image_hash := h, attempts := 0, llm_model := none, last_error := none,
                created_at := now, updated_at := now, processed_at := none }
            some row)

/-- save_lines image dedup: Python dict keyed by line_id, so first-key
order with the last value per key. -/
def dedup_by_line_id (vals : List ImageDetailRow) : List ImageDetailRow :=
  ((vals.map (fun v => v.line_id)).eraseDups).filterMap
    (fun k => vals.reverse.find? (fun v => v.line_id == k))

/-- save_lines helper _build_audio_details: audio documents only, one row
per line carrying a start_ts, regardless of block_type. -/
def build_audio_details (doc_id : Nat) (allow_audio : Bool)
    (nlines : List NormLine) (pos2id : List (Int × Nat)) : List AudioDetailRow :=
  if !allow_audio then []
  else
    nlines.filterMap (fun n =>
      match n.start_ts with
      | none => none
      | some ts =>
        let row : AudioDetailRow :=
          { line_id := pos2idLookup pos2id n.position, doc_id := doc_id,
            start_ts := ts, end_ts := n.end_ts, duration := n.duration,
            speaker_label := n.speaker_label, speaker_idx := n.speaker_idx,
            confidence := n.confidence, emo_primary := n.emo_primary,
            emo_scores := n.emo_scores }
        some row)

/-- save_lines helper _insert_image_details: insert with
on_conflict_do_nothing keyed on line_id. -/
def insert_image_details_ocdn (imgs vals : List ImageDetailRow) :
    List ImageDetailRow :=
  vals.foldl
    (fun acc v => if acc.any (fun i => i.line_id == v.line_id) then acc else acc ++ [v])
    imgs

/-- The error message of the re-import ban in save_lines. -/
def already_has_lines_msg (doc_id : Nat) : String :=
  "Document " ++ toString doc_id ++
    " already has lines. Use update_lines()/copy_lines() instead of re-import."

/-- pg_repositoryLine.py save_lines: empty input returns immediately; a
document that already has raw lines is a conflict; duplicate input
positions are a hard error; otherwise core rows are inserted first (each
firing the raw_lines trigger), then the three detail batches, all in one
transaction. -/
def save_lines (db : LineDB) (doc_id : Nat) (lines : List InLine)
    (doc_type : DocType) (now : Nat) : LineDB × Except PyExc Unit :=
  if lines.isEmpty then (db, Except.ok ())
  else
    let allow_images := doc_type == DocType.generic || doc_type == DocType.video
    let allow_audio := doc_type == DocType.audio
    if (db.raw_lines.filter (fun r => r.doc_id == doc_id)).length > 0 then
      (db, Except.error (PyExc.databaseError (already_has_lines_msg doc_id)))
    else
      let normalized := lines.map NormLine.model_validate
      if (normalized.map (fun n => n.position)).Nodup then
        let core := insert_core_rows doc_id now db normalized
        let db1 := core.1
        let pos2id := core.2
        let doc_vals := build_doc_details doc_id normalized pos2id
        let img_vals :=
          dedup_by_line_id (build_image_details_raw doc_id allow_images normalized pos2id now)
        let audio_vals := build_audio_details doc_id allow_audio normalized pos2id
        let db2 : LineDB :=
          { db1 with
            doc_details := db1.doc_details ++ doc_vals
            image_details := insert_image_details_ocdn db1.image_details img_vals
            audio_details := db1.audio_details ++ audio_vals }
        (db2, Except.ok ())
      else
        (db, Except.error (PyExc.databaseError "Duplicate positions in input"))

/-! ## Image job claim (pg_repositoryImage.py) -/

/-- pg_repositoryImage.py claim_task: conditional update keyed on line_id
with a status predicate, returning the updated row; rows in any other
status, and unknown ids, match nothing and are left untouched. -/
def claim_task (db : LineDB) (image_id : Nat) (now : Nat) :
    LineDB × Option ImageDetailRow :=
  match db.image_details.find? (fun i => i.line_id == image_id) with
  | some i0 =>
    if i0.status == "pending" || i0.status == "enqueued" then
      let upd : ImageDetailRow :=
        { i0 with status := "processing", attempts := i0.attempts + 1, updated_at := now }
      ({ db with
          image_details := db.image_details.map
            (fun i => if i.line_id == image_id then upd else i) },
       some upd)
    else (db, none)
  | none => (db, none)

/-! ## Joined retrieval (pg_repositoryLine.py get_lines_for_document_joined) -/

/-- The dict shape built per line by get_lines_for_document_joined. -/
structure EnrichedRow where
  line_id : Nat
  doc_id : Nat
  position : Int
  block_type : String
  content : String
  page_idx : Option Int
  block_id : Option String
  geometry : Option GeometryVal
  hierarchy : Option String
  attrs : Option String
  image_status : Option String
  image_text : Option String
  image_ocr_text : Option String
  start_ts : Option Rat
  end_ts : Option Rat
  duration : Option Rat
  speaker_label : Option String
  speaker_idx : Option Int
  confidence : Option Rat
  emo_primary : Option String
  emo_scores : Option String
deriving DecidableEq, Repr

/-- Insert a raw line into a list sorted by ascending position. -/
def insertByPos (r : RawLineRow) : List RawLineRow → List RawLineRow
  | [] => [r]
  | x :: xs => if r.position ≤ x.position then r :: x :: xs else x :: insertByPos r xs

/-- ORDER BY position: insertion sort on position. -/
def sortByPos (l : List RawLineRow) : List RawLineRow :=
  l.foldr insertByPos []

/-- The outer join of one raw line with its three optional detail rows,
absent modality fields mapped to none as getattr with a none default. -/
def enrich_row (db : LineDB) (r : RawLineRow) : EnrichedRow :=
  let docd := db.doc_details.find? (fun dd => dd.line_id == r.id)
  let imgd := db.image_details.find? (fun i => i.line_id == r.id)
  let audd := db.audio_details.find? (fun a => a.line_id == r.id)
  { line_id := r.id, doc_id := r.doc_id, position := r.position,
    block_type := r.block_type, content := r.content,
    page_idx := docd.bind (fun x => x.page_idx),
    block_id := docd.bind (fun x => x.block_id),
    geometry := docd.bind (fun x => x.geometry),
    hierarchy := docd.bind (fun x => x.hierarchy),
    attrs := docd.bind (fun x => x.attrs),
    image_status := imgd.map (fun x => x.status),
    image_text := imgd.bind (fun x => x.result_text),
    image_ocr_text := imgd.bind (fun x => x.ocr_text),
    start_ts := audd.map (fun x => x.start_ts),
    end_ts := audd.bind (fun x => x.end_ts),
    duration := audd.bind (fun x => x.duration),
    speaker_label := audd.bind (fun x => x.speaker_label),
    speaker_idx := audd.bind (fun x => x.speaker_idx),
    confidence := audd.bind (fun x => x.confidence),
    emo_primary := audd.bind (fun x => x.emo_primary),
    emo_scores := audd.bind (fun x => x.emo_scores) }

/-- The enriched list the query loop of get_lines_for_document_joined
accumulates: the raw lines of the document ordered by position, each
outer-joined with the three detail tables. -/
def joined_rows (db : LineDB) (d : Nat) : List EnrichedRow :=
  (sortByPos (db.raw_lines.filter (fun r => r.doc_id == d))).map (enrich_row db)

/-- pg_repositoryLine.py get_lines_for_document_joined: the function body
builds the enriched list but contains no return statement, so the
coroutine returns None to every caller. -/
def get_lines_for_document_joined (db : LineDB) (d : Nat) :
    Option (List EnrichedRow) :=
  let _enriched := joined_rows db d
  none

/-! ## Shared example values -/

/-- An example hash function standing in for sha256 hexdigest. -/
def exSha : Bytes → String := fun _ => "hash0"

/-- Example upload metadata. -/
def exMeta : DocMeta :=
  { user_document_id := "u1", name := "a.txt", owner_id := 7,
    access_group_id := none, metadata := "m" }

/-- Example stored_files row referenced by one document. -/
def exSf : StoredFile :=
  { id := 1, content_hash := "HH", object_path := "p", size_bytes := 5, extension := "txt" }

/-- Example documents row referencing exSf. -/
def exDoc : DocumentRow :=
  { id := 1, user_document_id := "u1", name := "a.txt", owner_id := 7,
    access_group_id := none, metadata := "m", stored_file_id := 1,
    doc_type := DocType.generic }

/-- Example orchestrator state: one blob, one stored file, one document. -/
def exStoreSt : StoreSt := ⟨["p"], [exSf], [exDoc], 2⟩

/-- Example raw line of document 1. -/
def exRaw0 : RawLineRow := ⟨0, 1, 0, "text", "intro"⟩

/-- Example line store holding one line for document 1. -/
def exDbLines : LineDB := ⟨[exRaw0], [], [], [], 1⟩

/-- Example input line for a re-import attempt. -/
def exInText : InLine := { position := 5, block_type := some "text", content := some "x" }

/-! ## C1 -/

/-- C1: the claim says every exception raised by the DB save after a
successful blob write triggers deletion of the just-written blob before
re-raising.  The source catches only DatabaseError and MinioError, while
save_new_physical_file wraps nothing, so its commit failures surface as
raw sqlalchemy errors: at this failing input the new-content upload whose
DB save raises an IntegrityError leaves the blob in the store and
re-raises, so afterwards the blob exists while neither DB row does. -/
theorem upload_file_uncaught_db_exc_keeps_blob :
    upload_file exSha ⟨[], [], [], 0⟩
        ⟨none, some (PyExc.sqlAlchemyError "IntegrityError")⟩
        "a.txt" [104, 105] exMeta 1 =
      (⟨["txt/1/raw/a.txt"], [], [], 0⟩,
        Except.error (PyExc.sqlAlchemyError "IntegrityError")) := by
  rfl

/-! ## C2 -/

/-- A second documents row referencing the same stored file as exDoc. -/
def exDoc2 : DocumentRow :=
  { id := 2, user_document_id := "u2", name := "b.txt", owner_id := 7,
    access_group_id := none, metadata := "m", stored_file_id := 1,
    doc_type := DocType.generic }

/-- C2: the claim says the orphan branch deletes the blob and then the
StoredFile row, attempting the row deletion even when the blob deletion
fails.  The row deletion is impossible in the source: ObjectRepository
defines no delete_stored_file, so after removing the blob client.py
raises AttributeError and the stored_files row survives; and when the
blob deletion itself raises, that failure propagates before the call.
At the one-document state the Document row is deleted, the blob is gone,
the StoredFile row remains and AttributeError propagates; with a failing
blob deletion the blob and row both remain.  The parts of the claim the
code does honor also evaluate as claimed: a second referencing document
keeps blob and row with a clean result, and a missing document is a
not-found error. -/
theorem delete_file_orphan_never_deletes_row :
    delete_file exStoreSt none 1 =
      (⟨[], [exSf], [], 2⟩, Except.error (PyExc.attributeError
        "ObjectRepository object has no attribute delete_stored_file")) ∧
    delete_file exStoreSt (some (PyExc.minioError "s3 down")) 1 =
      (⟨["p"], [exSf], [], 2⟩, Except.error (PyExc.minioError "s3 down")) ∧
    delete_file ⟨["p"], [exSf], [exDoc, exDoc2], 3⟩ none 1 =
      (⟨["p"], [exSf], [exDoc2], 3⟩, Except.ok ()) ∧
    delete_file exStoreSt none 9 =
      (exStoreSt, Except.error (PyExc.documentNotFoundError
        ("Document with id " ++ toString 9 ++ " not found."))) :=
  ⟨rfl, rfl, rfl, rfl⟩

/-! ## C3 -/

/-- C3: the claim says get_joined returns the enriched list ordered by
position.  The source builds that list but its body has no return
statement, so the coroutine returns None for every document, even though
the list it discarded is nonempty for a document with lines. -/
theorem get_lines_for_document_joined_is_none :
    (∀ (db : LineDB) (d : Nat), get_lines_for_document_joined db d = none) ∧
    joined_rows exDbLines 1 ≠ [] :=
  ⟨fun _ _ => rfl, by decide⟩

/-! ## C4 -/

/-- Two consecutive uploads of the same content, both on the happy path. -/
def upload_twice (sha : Bytes → String) (s : StoreSt) (n1 n2 : String) (c : Bytes)
    (m1 m2 : DocMeta) (id1 id2 : Nat) :
    (StoreSt × Except PyExc DocumentRow) × (StoreSt × Except PyExc DocumentRow) :=
  let r1 := upload_file sha s ⟨none, none⟩ n1 c m1 id1
  (r1, upload_file sha r1.1 ⟨none, none⟩ n2 c m2 id2)

/-- The StoredFile row the new-content path of upload_file creates. -/
def upload_new_sf (sha : Bytes → String) (s : StoreSt) (c : Bytes)
    (file_name : String) (id_doc : Nat) : StoredFile :=
  { id := s.next_sf_id, content_hash := sha c,
    object_path := build_object_path file_name id_doc,
    size_bytes := c.length, extension := stored_ext file_name }

/-- The Document row upload_file creates. -/
def upload_doc_row (meta : DocMeta) (id_doc sf_id : Nat) (file_name : String) :
    DocumentRow :=
  { id := id_doc, user_document_id := meta.user_document_id, name := meta.name,
    owner_id := meta.owner_id, access_group_id := meta.access_group_id,
    metadata := meta.metadata, stored_file_id := sf_id,
    doc_type := get_filetype (upload_ext file_name) }

/-- The state after the new-content path of upload_file succeeds. -/
def upload_new_state (sha : Bytes → String) (s : StoreSt) (c : Bytes)
    (file_name : String) (meta : DocMeta) (id_doc : Nat) : StoreSt :=
  { s with
    blobs := s.blobs ++ [build_object_path file_name id_doc]
    stored_files := s.stored_files ++ [upload_new_sf sha s c file_name id_doc]
    documents := s.documents ++ [upload_doc_row meta id_doc s.next_sf_id file_name]
    next_sf_id := s.next_sf_id + 1 }

/-- C4: uploading identical content twice, starting from a state holding
no StoredFile with that hash, succeeds twice, writes exactly one blob,
the second upload writes no blob and creates no StoredFile row, exactly
one StoredFile row with that hash exists afterwards, and the two created
Document rows both reference that single StoredFile. -/
theorem upload_file_dedup (sha : Bytes → String) (s : StoreSt) (c : Bytes)
    (n1 n2 : String) (m1 m2 : DocMeta) (id1 id2 : Nat)
    (hfresh : ∀ sf ∈ s.stored_files, ¬ sf.content_hash = sha c) :
    (upload_twice sha s n1 n2 c m1 m2 id1 id2).1.2 =
      Except.ok (upload_doc_row m1 id1 s.next_sf_id n1) ∧
    (upload_twice sha s n1 n2 c m1 m2 id1 id2).2.2 =
      Except.ok (upload_doc_row m2 id2 s.next_sf_id n2) ∧
    (upload_twice sha s n1 n2 c m1 m2 id1 id2).2.1.blobs =
      s.blobs ++ [build_object_path n1 id1] ∧
    (upload_twice sha s n1 n2 c m1 m2 id1 id2).2.1.blobs =
      (upload_twice sha s n1 n2 c m1 m2 id1 id2).1.1.blobs ∧
    (upload_twice sha s n1 n2 c m1 m2 id1 id2).2.1.stored_files =
      (upload_twice sha s n1 n2 c m1 m2 id1 id2).1.1.stored_files ∧
    ((upload_twice sha s n1 n2 c m1 m2 id1 id2).2.1.stored_files.filter
        (fun sf => sf.content_hash == sha c)).length = 1 ∧
    (upload_twice sha s n1 n2 c m1 m2 id1 id2).2.1.documents =
      s.documents ++ [upload_doc_row m1 id1 s.next_sf_id n1,
        upload_doc_row m2 id2 s.next_sf_id n2] ∧
    (upload_doc_row m1 id1 s.next_sf_id n1).stored_file_id = s.next_sf_id ∧
    (upload_doc_row m2 id2 s.next_sf_id n2).stored_file_id = s.next_sf_id := by
  have hnone : get_stored_file_by_hash s (sha c) = none := by
    apply List.find?_eq_none.mpr
    intro sf hm
    simp only [beq_iff_eq]
    exact hfresh sf hm
  have hfilter : s.stored_files.filter (fun sf => sf.content_hash == sha c) = [] := by
    rw [List.filter_eq_nil_iff]
    intro sf hm
    simp only [beq_iff_eq]
    exact hfresh sf hm
  have e1 : upload_file sha s ⟨none, none⟩ n1 c m1 id1 =
      (upload_new_state sha s c n1 m1 id1,
        Except.ok (upload_doc_row m1 id1 s.next_sf_id n1)) := by
    simp only [upload_file, hnone]
    rfl
  have hsome : get_stored_file_by_hash (upload_new_state sha s c n1 m1 id1) (sha c) =
      some (upload_new_sf sha s c n1 id1) := by
    have hnoneF : List.find? (fun sf => sf.content_hash == sha c) s.stored_files =
        none := hnone
    show List.find? (fun sf => sf.content_hash == sha c)
        (s.stored_files ++ [upload_new_sf sha s c n1 id1]) =
      some (upload_new_sf sha s c n1 id1)
    rw [List.find?_append, hnoneF]
    simp [upload_new_sf]
  have e2 : upload_file sha (upload_new_state sha s c n1 m1 id1) ⟨none, none⟩
        n2 c m2 id2 =
      ({ upload_new_state sha s c n1 m1 id1 with
          documents := (upload_new_state sha s c n1 m1 id1).documents ++
            [upload_doc_row m2 id2 s.next_sf_id n2] },
        Except.ok (upload_doc_row m2 id2 s.next_sf_id n2)) := by
    simp only [upload_file, hsome]
    rfl
  have ekey : upload_twice sha s n1 n2 c m1 m2 id1 id2 =
      ((upload_new_state sha s c n1 m1 id1,
          Except.ok (upload_doc_row m1 id1 s.next_sf_id n1)),
        ({ upload_new_state sha s c n1 m1 id1 with
            documents := (upload_new_state sha s c n1 m1 id1).documents ++
              [upload_doc_row m2 id2 s.next_sf_id n2] },
          Except.ok (upload_doc_row m2 id2 s.next_sf_id n2))) := by
    show (upload_file sha s ⟨none, none⟩ n1 c m1 id1,
        upload_file sha (upload_file sha s ⟨none, none⟩ n1 c m1 id1).1 ⟨none, none⟩
          n2 c m2 id2) = _
    rw [e1]
    rw [show (upload_new_state sha s c n1 m1 id1,
        Except.ok (upload_doc_row m1 id1 s.next_sf_id n1)).1 =
      upload_new_state sha s c n1 m1 id1 from rfl]
    rw [e2]
  rw [ekey]
  refine ⟨rfl, rfl, rfl, rfl, rfl, ?_, ?_, rfl, rfl⟩
  · show ((s.stored_files ++ [upload_new_sf sha s c n1 id1]).filter
      (fun sf => sf.content_hash == sha c)).length = 1
    rw [List.filter_append, hfilter]
    simp [upload_new_sf]
  · show (s.documents ++ [upload_doc_row m1 id1 s.next_sf_id n1]) ++
        [upload_doc_row m2 id2 s.next_sf_id n2] =
      s.documents ++ [upload_doc_row m1 id1 s.next_sf_id n1,
        upload_doc_row m2 id2 s.next_sf_id n2]
    rw [List.append_assoc]
    rfl

/-- C4 witness: two uploads of the bytes of "hi" into the empty state. -/
theorem upload_file_dedup_witness :
    (upload_twice exSha ⟨[], [], [], 0⟩ "a.txt" "b.txt" [104, 105]
        exMeta exMeta 1 2).2.1.blobs = ["txt/1/raw/a.txt"] ∧
    ((upload_twice exSha ⟨[], [], [], 0⟩ "a.txt" "b.txt" [104, 105]
        exMeta exMeta 1 2).2.1.stored_files.filter
      (fun sf => sf.content_hash == exSha [104, 105])).length = 1 := by
  obtain ⟨h1, h2, h3, h4, h5, h6, h7, h8, h9⟩ :=
    upload_file_dedup exSha ⟨[], [], [], 0⟩ [104, 105] "a.txt" "b.txt"
      exMeta exMeta 1 2 (by simp)
  exact ⟨h3, h6⟩

/-! ## C5 -/

/-- C5: calling save_lines with a non-empty input on a document that
already has raw lines fails with the conflict-flavoured DatabaseError and
returns with every table unchanged: the check precedes every insert and
the unit of work rolls back. -/
theorem save_lines_reimport_conflict (db : LineDB) (doc_id : Nat) (lines : List InLine)
    (t : DocType) (now : Nat) (hne : lines ≠ [])
    (hex : 0 < (db.raw_lines.filter (fun r => r.doc_id == doc_id)).length) :
    save_lines db doc_id lines t now =
      (db, Except.error (PyExc.databaseError (already_has_lines_msg doc_id))) := by
  have h1 : lines.isEmpty = false := by
    cases lines with
    | nil => exact absurd rfl hne
    | cons a l => rfl
  simp only [save_lines, h1, Bool.false_eq_true, if_false, if_pos hex]

/-- C5 witness: re-import of one line into the one-line document. -/
theorem save_lines_reimport_conflict_witness :
    ([exInText] : List InLine) ≠ [] ∧
    0 < (exDbLines.raw_lines.filter (fun r => r.doc_id == 1)).length ∧
    save_lines exDbLines 1 [exInText] DocType.generic 5 =
      (exDbLines, Except.error (PyExc.databaseError (already_has_lines_msg 1))) :=
  ⟨by decide, by decide,
    save_lines_reimport_conflict exDbLines 1 [exInText] DocType.generic 5
      (by decide) (by decide)⟩

/-! ## C6 -/

/-- An example lines_image row in terminal done state for line 1. -/
def exImgDone : ImageDetailRow :=
  { line_id := 1, doc_id := 1, filename := "pic.png", image_hash := "pic",
    status := "done", attempts := 3, result_text := some "caption", ocr_text := none,
    llm_model := none, last_error := none, created_at := 0, updated_at := 0,
    processed_at := some 4 }

/-- The raw line whose image row exImgDone is (same line_id). -/
def exRawImg1 : RawLineRow := ⟨1, 1, 5, "image_placeholder", "![](pic.png)"⟩

/-- A different raw line of the same document with the same image
reference. -/
def exRawImg2 : RawLineRow := ⟨2, 1, 6, "image_placeholder", "![](pic.png)"⟩

/-- C6 counterexample: the claim says a line whose image_hash already
exists for the same document is upserted rather than duplicated.  The
upsert conflicts on line_id only, and no unique constraint covers
(doc_id, image_hash), so a second placeholder line referencing the same
image in the same document yields a second ImageLineDetail row with the
same hash: after the trigger the table holds two rows of document 1 with
hash pic. -/
theorem trigger_upsert_same_hash_duplicate_rows :
    ((trigger_upsert_image [exImgDone] exRawImg2 7).filter
        (fun i => i.doc_id == 1 && i.image_hash == "pic")).length = 2 := by
  decide

/-- The refreshed row the trigger upsert writes over an existing row of
the same line_id. -/
def trigger_refresh_row (i0 : ImageDetailRow) (fname : String) (now : Nat) :
    ImageDetailRow :=
  { i0 with
    filename := fname
    image_hash := sql_strip_ext fname
    updated_at := now
    status := if i0.status == "failed" then "pending" else i0.status }

/-- C6 amended: the upsert is keyed by line_id, not by (doc_id,
image_hash).  When the acting raw line already has an ImageLineDetail row
(the same placeholder re-created or re-imported under its line id), the
row is refreshed in place and not duplicated: filename and image_hash are
replaced, updated_at is stamped, a failed status is reset to pending and
any other status, done in particular, is kept, with attempts and
result_text untouched; rows of other lines are unaffected.  A different
line whose image_hash already exists in the document receives a fresh row
instead (see the counterexample). -/
theorem trigger_upsert_same_line_refresh (imgs : List ImageDetailRow) (r : RawLineRow)
    (now : Nat) (fname : String)
    (hbt : r.block_type = "image_placeholder")
    (hparse : sql_regexp_image_fname r.content = some fname)
    (hne : ¬ fname = "")
    (hmem : imgs.any (fun i => i.line_id == r.id) = true) :
    (trigger_upsert_image imgs r now).length = imgs.length ∧
    (∀ i0 ∈ imgs, i0.line_id = r.id →
      trigger_refresh_row i0 fname now ∈ trigger_upsert_image imgs r now) ∧
    (∀ i0 ∈ imgs, ¬ i0.line_id = r.id → i0 ∈ trigger_upsert_image imgs r now) := by
  have hb : (r.block_type != "image_placeholder") = false := by simp [hbt]
  have hf : (fname == "") = false := by simp [hne]
  simp only [trigger_upsert_image, hb, Bool.false_eq_true, if_false, hparse, hf, hmem,
    if_true]
  refine ⟨List.length_map _ _, ?_, ?_⟩
  · intro i0 hm heq
    refine List.mem_map.mpr ⟨i0, hm, ?_⟩
    rw [if_pos]
    · simp [trigger_refresh_row]
    · simp [heq]
  · intro i0 hm hne2
    refine List.mem_map.mpr ⟨i0, hm, ?_⟩
    rw [if_neg]
    simp [hne2]

/-- C6 amended witness: re-processing the placeholder line of a done row
keeps the done status and refreshes the file name in place. -/
theorem trigger_upsert_same_line_refresh_witness :
    exRawImg1.block_type = "image_placeholder" ∧
    sql_regexp_image_fname exRawImg1.content = some "pic.png" ∧
    ([exImgDone].any (fun i => i.line_id == exRawImg1.id)) = true ∧
    trigger_refresh_row exImgDone "pic.png" 7 ∈
      trigger_upsert_image [exImgDone] exRawImg1 7 := by
  refine ⟨rfl, by decide, by decide, ?_⟩
  exact (trigger_upsert_same_line_refresh [exImgDone] exRawImg1 7 "pic.png" rfl
    (by decide) (by decide) (by decide)).2.1 exImgDone (List.mem_singleton.mpr rfl) rfl

/-! ## C7 -/

/-- An image-classified input line with the given markdown content and no
explicit hash. -/
def c7_line (c : String) : InLine :=
  { position := 0, block_type := some "image", content := some c }

/-- The hash the extension-strip step yields is never empty. -/
theorem extract_hash_ne_empty (fname h : String)
    (hp : extract_hash_from_fname fname = some h) : (h == "") = false := by
  unfold extract_hash_from_fname at hp
  split at hp
  · split at hp
    · exact absurd hp (by simp)
    · rename_i hcond
      cases hp
      simpa using hcond
  · exact absurd hp (by simp)

/-- The hash parser never returns the empty string. -/
theorem parse_image_hash_ne_empty (c h : String)
    (hp : parse_image_hash_from_md c = some h) : (h == "") = false := by
  unfold parse_image_hash_from_md at hp
  split at hp
  · exact absurd hp (by simp)
  · split at hp
    · exact absurd hp (by simp)
    · exact extract_hash_ne_empty _ h hp

/-- The normalised form of c7_line when the parser extracts hash h. -/
def c7_norm_parsed (c h : String) : NormLine :=
  { position := 0, block_type := "image", content := c, page_idx := none,
    block_id := none, geometry := none, polygon := none, bbox := none,
    hierarchy := none, attrs := none, is_image := none, image_hash := some h,
    object_key := none, filename := some (h ++ ".png"), status := none,
    result_text := none, ocr_text := none, start_ts := none, end_ts := none,
    duration := none, speaker_label := none, speaker_idx := none,
    confidence := none, emo_primary := none, emo_scores := none }

/-- The normalised form of c7_line when the parser extracts nothing. -/
def c7_norm_plain (c : String) : NormLine :=
  { position := 0, block_type := "image", content := c, page_idx := none,
    block_id := none, geometry := none, polygon := none, bbox := none,
    hierarchy := none, attrs := none, is_image := none, image_hash := none,
    object_key := none, filename := none, status := none,
    result_text := none, ocr_text := none, start_ts := none, end_ts := none,
    duration := none, speaker_label := none, speaker_idx := none,
    confidence := none, emo_primary := none, emo_scores := none }

/-- Inserting one row into the empty image table with
on_conflict_do_nothing just inserts it. -/
theorem ocdn_nil_singleton (v : ImageDetailRow) :
    insert_image_details_ocdn [] [v] = [v] := rfl

/-- The empty batch inserts nothing. -/
theorem ocdn_nil_nil : insert_image_details_ocdn [] [] = [] := rfl

/-- The line_id dedup of a one-element batch is the batch. -/
theorem dedup_by_line_id_singleton (v : ImageDetailRow) :
    dedup_by_line_id [v] = [v] := by
  have h1 : ([v.line_id] : List Nat).eraseDups = [v.line_id] := rfl
  simp [dedup_by_line_id, h1]

/-- The line_id dedup of the empty batch is empty. -/
theorem dedup_by_line_id_nil : dedup_by_line_id [] = [] := rfl

/-- C7: importing a single image-classified line with content c into an
empty store inserts its RawLine always, and creates an ImageLineDetail
row exactly when the markdown parser extracts a hash from c, the hash
being the referenced file name with its extension stripped and the
filename defaulted from the hash; in particular ![alt](pic.png) parses to
pic and prose content parses to nothing, so the prose line keeps its
RawLine and gets no ImageLineDetail. -/
theorem save_lines_image_hash_derivation (c : String) (d now : Nat) :
    (save_lines ⟨[], [], [], [], 0⟩ d [c7_line c] DocType.generic now).2 =
      Except.ok () ∧
    (save_lines ⟨[], [], [], [], 0⟩ d [c7_line c] DocType.generic now).1.raw_lines =
      [⟨0, d, 0, "image", c⟩] ∧
    (save_lines ⟨[], [], [], [], 0⟩ d [c7_line c] DocType.generic now).1.image_details =
      (match parse_image_hash_from_md c with
        | some h =>
          [⟨0, d, h ++ ".png", h, "pending", 0, none, none, none, none, now, now, none⟩]
        | none => []) ∧
    parse_image_hash_from_md "![alt](pic.png)" = some "pic" ∧
    parse_image_hash_from_md "no image here" = none := by
  have hlow : asciiLower "image" = "image" := by decide
  refine ⟨?_, ?_, ?_, by decide, by decide⟩ <;>
    · cases hp : parse_image_hash_from_md c with
      | some h =>
        have hne := parse_image_hash_ne_empty c h hp
        have hne2 : ¬ h = "" := by simpa using hne
        have hmv : NormLine.model_validate (c7_line c) = c7_norm_parsed c h := by
          simp [NormLine.model_validate, c7_line, NormLine.is_image_block, hlow,
            strFalsy, hp, hne, c7_norm_parsed]
        simp [save_lines, hmv, insert_core_rows, insert_core_row,
          trigger_upsert_image, build_doc_details, build_image_details_raw,
          build_audio_details, dedup_by_line_id_singleton, ocdn_nil_singleton,
          pos2idLookup, geometry_dict, strFalsy, pyOr, c7_norm_parsed,
          NormLine.is_image_block, List.filterMap_cons, List.filterMap_nil,
          hlow, hne, hne2, hp]
      | none =>
        have hmv : NormLine.model_validate (c7_line c) = c7_norm_plain c := by
          simp [NormLine.model_validate, c7_line, NormLine.is_image_block, hlow,
            strFalsy, hp, c7_norm_plain]
        simp [save_lines, hmv, insert_core_rows, insert_core_row,
          trigger_upsert_image, build_doc_details, build_image_details_raw,
          build_audio_details, dedup_by_line_id_nil, ocdn_nil_nil,
          pos2idLookup, geometry_dict, strFalsy, pyOr, c7_norm_plain,
          NormLine.is_image_block, List.filterMap_cons, List.filterMap_nil,
          hlow, hp]

/-! ## C8 -/

/-- The row claim_task writes and returns when it wins. -/
def claimed_row (i0 : ImageDetailRow) (now : Nat) : ImageDetailRow :=
  { i0 with status := "processing", attempts := i0.attempts + 1, updated_at := now }

/-- The image table after claim_task replaced the claimed row. -/
def claim_update_table (tbl : List ImageDetailRow) (iid now : Nat)
    (i0 : ImageDetailRow) : List ImageDetailRow :=
  tbl.map (fun i => if i.line_id == iid then claimed_row i0 now else i)

/-- After the conditional update replaced the row of the claimed line id,
a lookup by that line id finds the replacement. -/
theorem find?_line_id_map_replace (l : List ImageDetailRow) (iid : Nat)
    (upd : ImageDetailRow) (hupd : (upd.line_id == iid) = true)
    (h : (l.find? (fun i => i.line_id == iid)).isSome) :
    (l.map (fun i => if i.line_id == iid then upd else i)).find?
      (fun i => i.line_id == iid) = some upd := by
  induction l with
  | nil => simp at h
  | cons x xs ih =>
    rw [List.map_cons]
    by_cases hx : (x.line_id == iid) = true
    · rw [if_pos hx]
      simp [List.find?_cons, hupd]
    · rw [if_neg hx]
      rw [List.find?_cons_of_neg _ (by simp [hx])] at h ⊢
      exact ih h

/-- An example pending image job row for line 5. -/
def exImgPending : ImageDetailRow :=
  { line_id := 5, doc_id := 1, filename := "f.png", image_hash := "f",
    status := "pending", attempts := 0, result_text := none, ocr_text := none,
    llm_model := none, last_error := none, created_at := 0, updated_at := 0,
    processed_at := none }

/-- An example line store whose image table holds only exImgPending. -/
def exImgDb : LineDB := ⟨[], [], [exImgPending], [], 10⟩

/-- C8: claim_task returns the row updated to processing with attempts
incremented by one and updated_at stamped exactly when the stored status
was pending or enqueued; with any other prior status, or an unknown id,
it returns nothing and leaves the state unchanged; and a second claim of
the same job finds it in processing state and receives nothing, so of two
sequential claimers exactly one wins. -/
theorem claim_task_spec (db : LineDB) (iid now now2 : Nat) (i0 : ImageDetailRow)
    (hfind : db.image_details.find? (fun i => i.line_id == iid) = some i0) :
    (i0.status = "pending" ∨ i0.status = "enqueued" →
      claim_task db iid now =
        ({ db with image_details := claim_update_table db.image_details iid now i0 },
          some (claimed_row i0 now)) ∧
      (claim_task (claim_task db iid now).1 iid now2).2 = none) ∧
    (¬ i0.status = "pending" → ¬ i0.status = "enqueued" →
      claim_task db iid now = (db, none)) ∧
    (∀ db2 : LineDB, db2.image_details.find? (fun i => i.line_id == iid) = none →
      claim_task db2 iid now = (db2, none)) := by
  refine ⟨fun hst => ?_, fun h1 h2 => ?_, fun db2 hnone => ?_⟩
  · have hb : (i0.status == "pending" || i0.status == "enqueued") = true := by
      rcases hst with h | h <;> simp [h]
    have e1 : claim_task db iid now =
        ({ db with image_details := claim_update_table db.image_details iid now i0 },
          some (claimed_row i0 now)) := by
      simp only [claim_task, hfind, hb, if_true]
      rfl
    refine ⟨e1, ?_⟩
    rw [e1]
    have hf2 : ((claim_update_table db.image_details iid now i0).find?
        (fun i => i.line_id == iid)) = some (claimed_row i0 now) := by
      unfold claim_update_table
      apply find?_line_id_map_replace
      · have := List.find?_some hfind
        simpa [claimed_row] using this
      · rw [hfind]
        rfl
    simp only [claim_task, hf2]
    simp [claimed_row]
  · have hb : (i0.status == "pending" || i0.status == "enqueued") = false := by
      simp [h1, h2]
    simp only [claim_task, hfind, hb, Bool.false_eq_true, if_false]
  · simp only [claim_task, hnone]

/-- C8 witness: a pending job is claimed once, the second claim gets
nothing, and a lookup in an empty table gets nothing. -/
theorem claim_task_spec_witness :
    (claim_task exImgDb 5 100).2 = some (claimed_row exImgPending 100) ∧
    (claimed_row exImgPending 100).status = "processing" ∧
    (claimed_row exImgPending 100).attempts = exImgPending.attempts + 1 ∧
    (claimed_row exImgPending 100).updated_at = 100 ∧
    (claim_task (claim_task exImgDb 5 100).1 5 101).2 = none ∧
    claim_task (⟨[], [], [], [], 0⟩ : LineDB) 5 100 =
      ((⟨[], [], [], [], 0⟩ : LineDB), none) := by
  have h := claim_task_spec exImgDb 5 100 101 exImgPending rfl
  have hp := h.1 (Or.inl rfl)
  exact ⟨by rw [hp.1], rfl, rfl, rfl, hp.2, h.2.2 ⟨[], [], [], [], 0⟩ rfl⟩

/-! ## C9 -/

/-- An image line that also carries structural metadata, as parsers
commonly emit. -/
def exTwoDetailLine : InLine :=
  { position := 0, block_type := some "image", content := some "![](x.png)",
    block_id := some "b1" }

/-- C9 counterexample: the claim says each RawLine has at most one detail
row across the three detail tables.  The structural-detail builder of
save_lines does not exclude image lines, so one import of an image line
with a block_id creates line 0 with both a DocumentLineDetail row and an
ImageLineDetail row: two detail rows for one line. -/
theorem save_lines_two_detail_rows_for_one_line :
    (save_lines ⟨[], [], [], [], 0⟩ 1 [exTwoDetailLine] DocType.generic 0).2 =
      Except.ok () ∧
    (save_lines ⟨[], [], [], [], 0⟩ 1 [exTwoDetailLine] DocType.generic 0).1.raw_lines =
      [⟨0, 1, 0, "image", "![](x.png)"⟩] ∧
    ((save_lines ⟨[], [], [], [], 0⟩ 1
        [exTwoDetailLine] DocType.generic 0).1.doc_details.filter
      (fun dd => dd.line_id == 0)).length = 1 ∧
    ((save_lines ⟨[], [], [], [], 0⟩ 1
        [exTwoDetailLine] DocType.generic 0).1.image_details.filter
      (fun i => i.line_id == 0)).length = 1 := by
  refine ⟨rfl, rfl, by decide, by decide⟩

/-- The core insert never touches the audio table. -/
theorem insert_core_rows_audio (d now : Nat) (ns : List NormLine) :
    ∀ db : LineDB,
      (insert_core_rows d now db ns).1.audio_details = db.audio_details := by
  induction ns with
  | nil => intro db; rfl
  | cons n rest ih =>
    intro db
    show (insert_core_rows d now (insert_core_row db d n now).1 rest).1.audio_details =
      db.audio_details
    rw [ih]
    rfl

/-- No audio rows are built outside audio documents. -/
theorem build_audio_details_none (d : Nat) (ns : List NormLine)
    (p2 : List (Int × Nat)) : build_audio_details d false ns p2 = [] := rfl

/-- Rows of the trigger result either were in the table or belong to the
acting raw line, which then is an image_placeholder line. -/
theorem trigger_upsert_image_mem (imgs : List ImageDetailRow) (r : RawLineRow)
    (now : Nat) (i : ImageDetailRow) (hi : i ∈ trigger_upsert_image imgs r now) :
    i ∈ imgs ∨ (r.block_type = "image_placeholder" ∧ i.line_id = r.id) := by
  unfold trigger_upsert_image at hi
  split at hi
  · exact Or.inl hi
  · rename_i hbt
    have hbt2 : r.block_type = "image_placeholder" := by simpa using hbt
    split at hi
    · exact Or.inl hi
    · split at hi
      · exact Or.inl hi
      · split at hi
        · obtain ⟨j, hj, hij⟩ := List.mem_map.mp hi
          by_cases hjid : (j.line_id == r.id) = true
          · rw [if_pos hjid] at hij
            refine Or.inr ⟨hbt2, ?_⟩
            rw [← hij]
            simpa using hjid
          · rw [if_neg hjid] at hij
            exact Or.inl (hij ▸ hj)
        · rcases List.mem_append.mp hi with h | h
          · exact Or.inl h
          · refine Or.inr ⟨hbt2, ?_⟩
            simp only [List.mem_singleton] at h
            rw [h]

/-- The core insert only appends raw rows. -/
theorem insert_core_rows_raw_mono (d now : Nat) (ns : List NormLine) :
    ∀ (db : LineDB) (x : RawLineRow), x ∈ db.raw_lines →
      x ∈ (insert_core_rows d now db ns).1.raw_lines := by
  induction ns with
  | nil => intro db x hx; exact hx
  | cons n rest ih =>
    intro db x hx
    exact ih _ x (List.mem_append_left _ hx)

/-- Every position-to-id entry the core insert returns is realised by an
inserted raw row of the document. -/
theorem insert_core_rows_entry_raw (d now : Nat) (ns : List NormLine) :
    ∀ (db : LineDB) (pr : Int × Nat), pr ∈ (insert_core_rows d now db ns).2 →
      ∃ r ∈ (insert_core_rows d now db ns).1.raw_lines,
        r.id = pr.2 ∧ r.doc_id = d ∧ r.position = pr.1 := by
  induction ns with
  | nil => intro db pr hpr; exact absurd hpr (List.not_mem_nil pr)
  | cons n rest ih =>
    intro db pr hpr
    rcases List.mem_cons.mp hpr with h | h
    · subst h
      refine ⟨⟨db.next_line_id, d, n.position,
          if n.block_type == "" then "text" else n.block_type, n.content⟩,
        ?_, rfl, rfl, rfl⟩
      apply insert_core_rows_raw_mono d now rest (insert_core_row db d n now).1
      exact List.mem_append_right _ (List.mem_singleton.mpr rfl)
    · obtain ⟨r, hr, h1, h2, h3⟩ := ih (insert_core_row db d n now).1 pr h
      exact ⟨r, hr, h1, h2, h3⟩

/-- The position of every input line appears among the returned
position-to-id entries. -/
theorem insert_core_rows_key_mem (d now : Nat) (ns : List NormLine) :
    ∀ (db : LineDB) (n : NormLine), n ∈ ns →
      ∃ pr ∈ (insert_core_rows d now db ns).2, pr.1 = n.position := by
  induction ns with
  | nil => intro db n hn; exact absurd hn (List.not_mem_nil n)
  | cons m rest ih =>
    intro db n hn
    rcases List.mem_cons.mp hn with h | h
    · subst h
      exact ⟨(n.position, db.next_line_id), List.mem_cons_self _ _, rfl⟩
    · obtain ⟨pr, hpr, hkey⟩ := ih (insert_core_row db d m now).1 n h
      exact ⟨pr, List.mem_cons_of_mem _ hpr, hkey⟩

/-- When some entry carries the looked-up position, the dict lookup
returns the value of such an entry. -/
theorem pos2idLookup_finds (l : List (Int × Nat)) (q : Int)
    (hq : ∃ pr ∈ l, pr.1 = q) :
    ∃ pr ∈ l, pr.1 = q ∧ pos2idLookup l q = pr.2 := by
  induction l with
  | nil =>
    obtain ⟨pr, hpr, _⟩ := hq
    exact absurd hpr (List.not_mem_nil pr)
  | cons p t ih =>
    by_cases hp : (p.1 == q) = true
    · refine ⟨p, List.mem_cons_self p t, by simpa using hp, ?_⟩
      unfold pos2idLookup
      rw [List.find?_cons_of_pos (p := fun pr => pr.1 == q) t hp]
    · have hq2 : ∃ pr ∈ t, pr.1 = q := by
        obtain ⟨pr, hpr, hkey⟩ := hq
        rcases List.mem_cons.mp hpr with h | h
        · exact absurd (by rw [h] at hkey; simp [hkey]) hp
        · exact ⟨pr, h, hkey⟩
      obtain ⟨pr, hpr, hkey, hlook⟩ := ih hq2
      refine ⟨pr, List.mem_cons_of_mem p hpr, hkey, ?_⟩
      unfold pos2idLookup at hlook ⊢
      rw [List.find?_cons_of_neg (p := fun pr => pr.1 == q) t hp]
      exact hlook

/-- A line stored with block_type image_placeholder was classified as an
image block. -/
theorem stored_bt_image_flag (n : NormLine)
    (hbt : (if n.block_type == "" then "text" else n.block_type) =
      "image_placeholder") : n.is_image_block = true := by
  by_cases hbe : (n.block_type == "") = true
  · rw [if_pos hbe] at hbt
    exact absurd hbt (by decide)
  · rw [if_neg hbe] at hbt
    unfold NormLine.is_image_block
    rw [hbt]
    rw [show asciiLower "image_placeholder" = "image_placeholder" from by decide]
    simp

/-- Every image row the core insert adds sits on a raw row inserted for
an image-classified input line at that input line's position. -/
theorem insert_core_rows_image_mem (d now : Nat) (ns : List NormLine) :
    ∀ (db : LineDB) (i : ImageDetailRow),
      i ∈ (insert_core_rows d now db ns).1.image_details →
      i ∈ db.image_details ∨
        ∃ n ∈ ns, n.is_image_block = true ∧
          ∃ r ∈ (insert_core_rows d now db ns).1.raw_lines,
            r.id = i.line_id ∧ r.doc_id = d ∧ r.position = n.position := by
  induction ns with
  | nil => intro db i hi; exact Or.inl hi
  | cons n rest ih =>
    intro db i hi
    rcases ih (insert_core_row db d n now).1 i hi with hmem |
      ⟨m, hm, hib, r, hr, h1, h2, h3⟩
    · rcases trigger_upsert_image_mem db.image_details
        ⟨db.next_line_id, d, n.position,
          if n.block_type == "" then "text" else n.block_type, n.content⟩
        now i hmem with h | ⟨hplc, hlid⟩
      · exact Or.inl h
      · refine Or.inr ⟨n, List.mem_cons_self n rest, stored_bt_image_flag n hplc,
          ⟨db.next_line_id, d, n.position,
            if n.block_type == "" then "text" else n.block_type, n.content⟩,
          ?_, hlid.symm, rfl, rfl⟩
        apply insert_core_rows_raw_mono d now rest (insert_core_row db d n now).1
        exact List.mem_append_right _ (List.mem_singleton.mpr rfl)
    · exact Or.inr ⟨m, List.mem_cons_of_mem n hm, hib, r, hr, h1, h2, h3⟩

/-- Rows surviving on_conflict_do_nothing come from the table or the
batch. -/
theorem insert_image_details_ocdn_mem (vals : List ImageDetailRow) :
    ∀ (imgs : List ImageDetailRow) (i : ImageDetailRow),
      i ∈ insert_image_details_ocdn imgs vals → i ∈ imgs ∨ i ∈ vals := by
  induction vals with
  | nil => intro imgs i hi; exact Or.inl hi
  | cons v vs ih =>
    intro imgs i hi
    rcases ih (if imgs.any (fun j => j.line_id == v.line_id) then imgs
        else imgs ++ [v]) i hi with hmem | hmem
    · by_cases hg : imgs.any (fun j => j.line_id == v.line_id) = true
      · rw [if_pos hg] at hmem
        exact Or.inl hmem
      · rw [if_neg hg] at hmem
        rcases List.mem_append.mp hmem with h | h
        · exact Or.inl h
        · simp only [List.mem_singleton] at h
          exact Or.inr (by simp [h])
    · exact Or.inr (List.mem_cons_of_mem v hmem)

/-- The line_id dedup only drops rows. -/
theorem dedup_by_line_id_sub (vals : List ImageDetailRow) (i : ImageDetailRow)
    (hi : i ∈ dedup_by_line_id vals) : i ∈ vals := by
  unfold dedup_by_line_id at hi
  obtain ⟨k, hk, hfind⟩ := List.mem_filterMap.mp hi
  have := List.mem_of_find?_eq_some hfind
  simpa using this

/-- Every explicitly built image detail comes from an image-classified
input line, and carries the line id looked up at that line's position. -/
theorem build_image_details_raw_mem (d : Nat) (allow : Bool) (ns : List NormLine)
    (p2 : List (Int × Nat)) (now : Nat) (i : ImageDetailRow)
    (hi : i ∈ build_image_details_raw d allow ns p2 now) :
    ∃ n ∈ ns, n.is_image_block = true ∧
      i.line_id = pos2idLookup p2 n.position := by
  unfold build_image_details_raw at hi
  split at hi
  · exact absurd hi (List.not_mem_nil i)
  · obtain ⟨n, hn, hf⟩ := List.mem_filterMap.mp hi
    refine ⟨n, hn, ?_⟩
    have hib : n.is_image_block = true := by
      by_cases hb : n.is_image_block = true
      · exact hb
      · rw [if_pos (by simp [hb])] at hf
        exact absurd hf (by simp)
    refine ⟨hib, ?_⟩
    rw [if_neg (by simp [hib])] at hf
    split at hf
    · exact absurd hf (by simp)
    · split at hf
      · exact absurd hf (by simp)
      · simp only [Option.some.injEq] at hf
        rw [← hf]

/-- Mapping a line_id-preserving function over the image table keeps the
line_id list. -/
theorem map_line_id_of_preserve (imgs : List ImageDetailRow)
    (F : ImageDetailRow → ImageDetailRow)
    (hF : ∀ j, (F j).line_id = j.line_id) :
    (imgs.map F).map (fun i => i.line_id) = imgs.map (fun i => i.line_id) := by
  rw [List.map_map]
  apply List.map_congr_left
  intro j hj
  exact hF j

/-- The trigger never introduces a duplicate line_id into the image
table. -/
theorem trigger_upsert_image_nodup (imgs : List ImageDetailRow) (r : RawLineRow)
    (now : Nat) (h : (imgs.map (fun i => i.line_id)).Nodup) :
    ((trigger_upsert_image imgs r now).map (fun i => i.line_id)).Nodup := by
  unfold trigger_upsert_image
  split
  · exact h
  · split
    · exact h
    · split
      · exact h
      · split
        · rename_i hany
          rw [map_line_id_of_preserve]
          · exact h
          · intro j
            by_cases hjid : (j.line_id == r.id) = true
            · rw [if_pos hjid]
            · rw [if_neg hjid]
        · rename_i hany
          rw [List.map_append]
          refine List.Nodup.append h (List.nodup_singleton _) ?_
          intro a ha
          simp only [List.map_cons, List.map_nil, List.mem_singleton]
          intro hav
          obtain ⟨j, hj, hjid⟩ := List.mem_map.mp ha
          apply hany
          exact List.any_eq_true.mpr ⟨j, hj, by simp [hjid, hav]⟩

/-- The core insert preserves line_id uniqueness of the image table. -/
theorem insert_core_rows_image_nodup (d now : Nat) (ns : List NormLine) :
    ∀ db : LineDB, (db.image_details.map (fun i => i.line_id)).Nodup →
      ((insert_core_rows d now db ns).1.image_details.map
        (fun i => i.line_id)).Nodup := by
  induction ns with
  | nil => intro db h; exact h
  | cons n rest ih =>
    intro db h
    exact ih _ (trigger_upsert_image_nodup _ _ _ h)

/-- on_conflict_do_nothing preserves line_id uniqueness. -/
theorem insert_image_details_ocdn_nodup (vals : List ImageDetailRow) :
    ∀ imgs : List ImageDetailRow, (imgs.map (fun i => i.line_id)).Nodup →
      ((insert_image_details_ocdn imgs vals).map (fun i => i.line_id)).Nodup := by
  induction vals with
  | nil => intro imgs h; exact h
  | cons v vs ih =>
    intro imgs h
    have hstep : ((if imgs.any (fun j => j.line_id == v.line_id) then imgs
        else imgs ++ [v]).map (fun i => i.line_id)).Nodup := by
      by_cases hg : imgs.any (fun j => j.line_id == v.line_id) = true
      · rw [if_pos hg]
        exact h
      · rw [if_neg hg]
        rw [List.map_append]
        refine List.Nodup.append h (List.nodup_singleton _) ?_
        intro a ha
        simp only [List.map_cons, List.map_nil, List.mem_singleton]
        intro hav
        obtain ⟨j, hj, hjid⟩ := List.mem_map.mp ha
        apply hg
        exact List.any_eq_true.mpr ⟨j, hj, by simp [hjid, hav]⟩
    exact ih _ hstep

/-- C9 amended: for save_lines on a generic or video document, no audio
detail is written; every ImageLineDetail row created by the call traces
to an image-classified input line (is_image flag, or block_type image or
image_placeholder): the row sits, via its line_id, on the raw line
inserted for the document at that input line's position; and line_id
uniqueness of the image table is preserved, so each line keeps at most
one image detail.  But a line may additionally carry a structural
DocumentLineDetail next to its image detail (see the counterexample),
and in an audio document the raw-line trigger can still create image
details for image_placeholder lines. -/
theorem save_lines_modality_details (db : LineDB) (d now : Nat) (lines : List InLine)
    (t : DocType) (db2 : LineDB)
    (ht : t = DocType.generic ∨ t = DocType.video)
    (hok : save_lines db d lines t now = (db2, Except.ok ())) :
    db2.audio_details = db.audio_details ∧
    (∀ i ∈ db2.image_details, i ∈ db.image_details ∨
      ∃ n ∈ lines.map NormLine.model_validate, n.is_image_block = true ∧
        ∃ r ∈ db2.raw_lines,
          r.id = i.line_id ∧ r.doc_id = d ∧ r.position = n.position) ∧
    ((db.image_details.map (fun i => i.line_id)).Nodup →
      (db2.image_details.map (fun i => i.line_id)).Nodup) := by
  have haud : (t == DocType.audio) = false := by
    rcases ht with h | h <;> simp [h]
  simp only [save_lines] at hok
  by_cases hemp : lines.isEmpty = true
  · rw [if_pos hemp] at hok
    injection hok with hA hB
    subst hA
    exact ⟨rfl, fun i hi => Or.inl hi, id⟩
  · rw [if_neg hemp] at hok
    by_cases hconf : (db.raw_lines.filter (fun r => r.doc_id == d)).length > 0
    · rw [if_pos hconf] at hok
      exact absurd hok (by simp)
    · rw [if_neg hconf] at hok
      by_cases hnd :
          ((lines.map NormLine.model_validate).map (fun n => n.position)).Nodup
      · rw [if_pos hnd] at hok
        injection hok with hA hB
        subst hA
        refine ⟨?_, ?_, ?_⟩
        · show (insert_core_rows d now db
              (lines.map NormLine.model_validate)).1.audio_details ++
            build_audio_details d (t == DocType.audio)
              (lines.map NormLine.model_validate)
              (insert_core_rows d now db (lines.map NormLine.model_validate)).2 =
            db.audio_details
          rw [haud, build_audio_details_none, List.append_nil,
            insert_core_rows_audio]
        · intro i hi
          rcases insert_image_details_ocdn_mem _ _ i hi with hmem | hmem
          · rcases insert_core_rows_image_mem d now _ db i hmem with h |
              ⟨n, hn, hib, r, hr, h1, h2, h3⟩
            · exact Or.inl h
            · exact Or.inr ⟨n, hn, hib, r, hr, h1, h2, h3⟩
          · obtain ⟨n, hn, hib, hlid⟩ := build_image_details_raw_mem d
              (t == DocType.generic || t == DocType.video) _ _ now i
              (dedup_by_line_id_sub _ i hmem)
            obtain ⟨pr0, hpr0, hkey0⟩ :=
              insert_core_rows_key_mem d now (lines.map NormLine.model_validate) db n hn
            obtain ⟨pr, hpr, hkey, hlook⟩ :=
              pos2idLookup_finds _ n.position ⟨pr0, hpr0, hkey0⟩
            obtain ⟨r, hr, hrid, hrdoc, hrpos⟩ :=
              insert_core_rows_entry_raw d now (lines.map NormLine.model_validate)
                db pr hpr
            refine Or.inr ⟨n, hn, hib, r, hr, ?_, hrdoc, ?_⟩
            · rw [hrid, ← hlook, ← hlid]
            · rw [hrpos, hkey]
        · intro h
          exact insert_image_details_ocdn_nodup _ _
            (insert_core_rows_image_nodup d now _ db h)
      · rw [if_neg hnd] at hok
        exact absurd hok (by simp)

/-- C9 amended witness at the counterexample import. -/
theorem save_lines_modality_details_witness :
    (DocType.generic = DocType.generic ∨ DocType.generic = DocType.video) ∧
    save_lines ⟨[], [], [], [], 0⟩ 1 [exTwoDetailLine] DocType.generic 0 =
      ((save_lines ⟨[], [], [], [], 0⟩ 1 [exTwoDetailLine] DocType.generic 0).1,
        Except.ok ()) ∧
    (save_lines ⟨[], [], [], [], 0⟩ 1
        [exTwoDetailLine] DocType.generic 0).1.audio_details = [] ∧
    (((save_lines ⟨[], [], [], [], 0⟩ 1
        [exTwoDetailLine] DocType.generic 0).1.image_details.map
      (fun i => i.line_id)).Nodup) := by
  have h := save_lines_modality_details ⟨[], [], [], [], 0⟩ 1 0 [exTwoDetailLine]
    DocType.generic
    (save_lines ⟨[], [], [], [], 0⟩ 1 [exTwoDetailLine] DocType.generic 0).1
    (Or.inl rfl) rfl
  exact ⟨Or.inl rfl, rfl, h.1, h.2.2 (by decide)⟩

/-! ## C10 -/

/-- C10: save_lines with an empty input list returns ok immediately and
changes nothing, for every document state, ahead of the re-import
conflict check. -/
theorem save_lines_empty_input_noop (db : LineDB) (doc_id : Nat) (t : DocType)
    (now : Nat) : save_lines db doc_id [] t now = (db, Except.ok ()) :=
  rfl

end SensoryDataClient
